import Mathlib

/-!
Verification of the blogicum blog application (django_sprint4).

Shallow embedding of `blog/models.py` and `blog/views.py`.

Modelling conventions:
* Timestamps (`pub_date`, `created_at`, `now`) are naturals.
* Users are identified by their primary key; the username appearing in
  URLs is identified with that key.
* The database is a `Store`: lists of rows for each model.  Primary-key
  uniqueness (enforced by the relational store) is the `Store.WF`
  invariant.
* `request.user` of an authenticated request is a `Nat`; views that are
  reachable anonymously take an `Option Nat` viewer (`none` is Django's
  `AnonymousUser`, which is `!=` every `User` row).
* QuerySet filters on a related field (`category__is_published=True`)
  follow Django/SQL join semantics: the condition holds only when the
  foreign key is non-null and a row with that key matches, since a SQL
  `NULL` foreign key produces no joined row for the comparison.
-/

namespace Blogicum

/-- A row of `Category` (models.py): title, description, unique slug,
plus the `TimeStampedModel` fields `is_published` and `created_at`. -/
structure Category where
  id : Nat
  title : String
  description : String
  slug : String
  is_published : Bool
  created_at : Nat
deriving DecidableEq

/-- A row of `Location` (models.py): name plus the `TimeStampedModel`
fields. -/
structure Location where
  id : Nat
  name : String
  is_published : Bool
  created_at : Nat
deriving DecidableEq

/-- A row of `Post` (models.py).  `category` and `location` are nullable
foreign keys (`null=True`, `on_delete=SET_NULL`); `author` is a
non-null foreign key to `User` (`on_delete=CASCADE`).  `image` is the
optional upload path. -/
structure Post where
  id : Nat
  title : String
  text : String
  image : Option String
  pub_date : Nat
  author : Nat
  category : Option Nat
  location : Option Nat
  is_published : Bool
  created_at : Nat
deriving DecidableEq

/-- A row of `Comment` (models.py): text, a non-null foreign key to its
`Post` (`on_delete=CASCADE`), `created_at`, and the author foreign
key. -/
structure Comment where
  id : Nat
  text : String
  post : Nat
  created_at : Nat
  author : Nat
deriving DecidableEq

/-- The relational store: one list of rows per model.  `users` holds the
primary keys of the externally managed `User` rows. -/
structure Store where
  users : List Nat
  categories : List Category
  locations : List Location
  posts : List Post
  comments : List Comment
deriving DecidableEq

/-- Primary keys are unique within each table — the invariant any
relational store maintains for `pk` columns. -/
def Store.WF (s : Store) : Prop :=
  s.posts.Pairwise (fun a b => a.id ≠ b.id)
  ∧ s.comments.Pairwise (fun a b => a.id ≠ b.id)
  ∧ s.categories.Pairwise (fun a b => a.id ≠ b.id)

instance (s : Store) : Decidable s.WF := by
  unfold Store.WF; infer_instance

/-- `Post.objects.get(pk=post_id)` as a partial lookup:
the row whose primary key is `pid`, if any. -/
def findPost (s : Store) (pid : Nat) : Option Post :=
  s.posts.find? (fun p => p.id == pid)

/-- `Post.objects.get(pk=post_id, author=u)`: lookup filtered by both
primary key and authorship (used by `delete_post`, views.py line 85). -/
def findPostOfAuthor (s : Store) (pid u : Nat) : Option Post :=
  s.posts.find? (fun p => p.id == pid && p.author == u)

/-- `Comment.objects.get(pk=comment_id)`. -/
def findComment (s : Store) (cid : Nat) : Option Comment :=
  s.comments.find? (fun c => c.id == cid)

/-- `Comment.objects.get(pk=comment_id, author=u)` (used by
`edit_comment` and `delete_comment`, views.py lines 108 and 119). -/
def findCommentOfAuthor (s : Store) (cid u : Nat) : Option Comment :=
  s.comments.find? (fun c => c.id == cid && c.author == u)

/-- The filter condition `category__is_published=True` of
`public_posts` (views.py line 24) under SQL join semantics: it holds
iff the post's category key is non-null, a category row with that key
exists, and that row is published.  A null `category` yields no joined
row, so the condition fails. -/
def categoryPublished (s : Store) (p : Post) : Bool :=
  match p.category with
  | none => false
  | some cid =>
    match s.categories.find? (fun c => c.id == cid) with
    | some c => c.is_published
    | none => false

/-- The conjunction of the three filter conditions of `public_posts`
(views.py lines 22-24): `pub_date__lte=timezone.now()`,
`is_published=True`, `category__is_published=True`. -/
def publiclyVisible (s : Store) (now : Nat) (p : Post) : Bool :=
  decide (p.pub_date ≤ now) && p.is_published && categoryPublished s p

/-- `annotate(comment_count=Count('comments'))`: the number of comments
whose post foreign key is `pid`. -/
def commentCount (s : Store) (pid : Nat) : Nat :=
  (s.comments.filter (fun c => c.post == pid)).length

/-- A post row together with its annotated `comment_count`. -/
structure AnnPost where
  post : Post
  comment_count : Nat
deriving DecidableEq

/-- `annotate(comment_count=Count('comments'))` over a list of rows. -/
def annotateComments (s : Store) (l : List Post) : List AnnPost :=
  l.map (fun p => ⟨p, commentCount s p.id⟩)

/-- One step of a stable insertion sort realising
`order_by('-pub_date')`: insert `a` before the first element whose
`pub_date` is strictly smaller, so equal keys keep their relative
order. -/
def insertDescPub (a : AnnPost) : List AnnPost → List AnnPost
  | [] => [a]
  | b :: l =>
    if b.post.pub_date < a.post.pub_date then a :: b :: l
    else b :: insertDescPub a l

/-- `order_by('-pub_date')`: sort annotated posts by publication time,
newest first. -/
def sortByPubDateDesc (l : List AnnPost) : List AnnPost :=
  l.foldr insertDescPub []

/-- One step of a stable insertion sort realising
`order_by('created_at')` on comments. -/
def insertAscCreated (a : Comment) : List Comment → List Comment
  | [] => [a]
  | b :: l =>
    if a.created_at < b.created_at then a :: b :: l
    else b :: insertAscCreated a l

/-- `order_by('created_at')`: comments oldest first (views.py line 50,
also the `Comment.Meta.ordering`). -/
def sortByCreatedAsc (l : List Comment) : List Comment :=
  l.foldr insertAscCreated []

/-- `public_posts(posts_queryset)` (views.py lines 12-27): filter a base
collection of posts by the three visibility conditions, annotate each
survivor with its comment count, and order by `pub_date` descending.
`select_related` only prefetches joined rows and does not change the
result set. -/
def public_posts (s : Store) (now : Nat) (base : List Post) : List AnnPost :=
  sortByPubDateDesc (annotateComments s (base.filter (publiclyVisible s now)))

/-- `public_posts()` with the default base `Post.objects.all()`: the
public feed. -/
def publicFeed (s : Store) (now : Nat) : List AnnPost :=
  public_posts s now s.posts

/-! ## Pagination

`paginate_queryset` (views.py lines 30-33) hands `request.GET.get('page')`
to Django's `Paginator.get_page`.  The framework's behaviour, embedded
here: `get_page` first runs `validate_number`, which parses the
parameter with `int(...)` — an absent (`None`) or non-numeric parameter
raises `PageNotAnInteger` and is replaced by page 1, while a parsed
number below 1 or above `num_pages` raises `EmptyPage` and is replaced
by the LAST page (`num_pages`) — and then returns the slice
`[(number-1)*per_page, number*per_page)` of the collection. -/

/-- The `page` request parameter after `int(...)` parsing: absent
(`request.GET.get` returned `None`), a string `int()` rejects, or a
parsed integer. -/
inductive PageParam where
  | absent
  | nonNumeric
  | num (n : Int)
deriving DecidableEq

/-- Django `Paginator.num_pages` with `orphans=0` and
`allow_empty_first_page=True`: `ceil(max(1, count) / per_page)`. -/
def num_pages (count per_page : Nat) : Nat :=
  (max 1 count + per_page - 1) / per_page

/-- The page number `Paginator.get_page` settles on: parse failures
become page 1; out-of-range numbers (below 1 or above `num_pages`)
become the last page. -/
def clampPage (count per_page : Nat) (p : PageParam) : Nat :=
  let np := num_pages count per_page
  match p with
  | .absent => 1
  | .nonNumeric => 1
  | .num n => if n < 1 then np else if (np : Int) < n then np else n.toNat

/-- Django `Paginator.get_page` as called by `paginate_queryset`:
always returns the object list of a valid page. -/
def get_page {α : Type} (l : List α) (per_page : Nat) (p : PageParam) : List α :=
  let number := clampPage l.length per_page p
  (l.drop ((number - 1) * per_page)).take per_page

/-- Modelled from the spec: `POSTS_PER_PAGE` lives in
`blog/constants.py`, which is not under src/; the spec says only that
the page size is a fixed external constant shared across listing
views.  Its concrete value (10 here) is irrelevant to every claim. -/
def POSTS_PER_PAGE : Nat := 10

/-! ## Responses and forms -/

/-- The redirect targets the handlers use (`blog:post_detail`,
`blog:profile`). -/
inductive Redirect where
  | postDetail (post_id : Nat)
  | profilePage (username : Nat)
deriving DecidableEq

/-- A handler's response.  `renderDetail` carries the post and comment
payload of `blog/detail.html`; `renderProfile` carries the page of
annotated posts handed to `blog/profile.html`; other renders are
identified by template name; `notFound` is the `Http404` raised by
`get_object_or_404`. -/
inductive Response where
  | renderDetail (post : Post) (comments : List Comment)
  | renderProfile (username : Nat) (page_obj : List AnnPost)
  | renderTemplate (t : String)
  | redirectTo (r : Redirect)
  | notFound
deriving DecidableEq

/-- Modelled from the spec: `PostForm` is declared in `blog/forms.py`,
which is not under src/.  The spec says a valid submission carries the
post's content fields and that any author value the client might
supply is ignored; to verify that, the model pessimistically lets the
form carry a client-chosen `author_attempt` which `save(commit=False)`
would honour. -/
structure PostFormData where
  valid : Bool
  title : String
  text : String
  image : Option String
  pub_date : Nat
  category : Option Nat
  location : Option Nat
  is_published : Bool
  author_attempt : Nat
deriving DecidableEq

/-- `PostForm(...).save(commit=False)` on a create: build an unsaved
`Post` row from the submitted data (author pessimistically taken from
the client's data; the handler overwrites it before saving). -/
def PostFormData.buildPost (f : PostFormData) (newId createdAt : Nat) : Post :=
  { id := newId, title := f.title, text := f.text, image := f.image,
    pub_date := f.pub_date, author := f.author_attempt,
    category := f.category, location := f.location,
    is_published := f.is_published, created_at := createdAt }

/-- `PostForm(..., instance=post)` followed by `post.save()` on an
edit: overwrite the form-backed fields of the existing row; `id`,
`author` and `created_at` are not form fields. -/
def PostFormData.applyTo (f : PostFormData) (p : Post) : Post :=
  { p with title := f.title, text := f.text, image := f.image,
           pub_date := f.pub_date, category := f.category,
           location := f.location, is_published := f.is_published }

/-- Modelled from the spec: `CommentForm` is declared in
`blog/forms.py`, which is not under src/.  A valid submission carries
the comment text; as with posts, a client-supplied author is modelled
pessimistically and overwritten by the handler. -/
structure CommentFormData where
  valid : Bool
  text : String
  author_attempt : Nat
deriving DecidableEq

/-- `CommentForm(...).save(commit=False)` on a create: an unsaved
`Comment` row (post key and author are filled in by the handler). -/
def CommentFormData.buildComment (f : CommentFormData) (newId createdAt : Nat) : Comment :=
  { id := newId, text := f.text, post := 0,
    created_at := createdAt, author := f.author_attempt }

/-- `CommentForm(..., instance=comment)` followed by `comment.save()`:
overwrite the text of the existing row. -/
def CommentFormData.applyTo (f : CommentFormData) (c : Comment) : Comment :=
  { c with text := f.text }

/-! ## Deletion semantics of the schema (models.py)

`Post.author` and `Comment.post`/`Comment.author` are
`on_delete=CASCADE`; `Post.category` and `Post.location` are
`on_delete=SET_NULL`. -/

/-- Deleting a post row: the row disappears and, by
`Comment.post(on_delete=CASCADE)`, so does every comment referencing
it. -/
def Store.deletePostCascade (s : Store) (pid : Nat) : Store :=
  { s with posts := s.posts.filter (fun p => p.id ≠ pid),
           comments := s.comments.filter (fun c => c.post ≠ pid) }

/-- The `SET_NULL` action of `Post.category` applied to one row. -/
def scrubCategory (cid : Nat) (p : Post) : Post :=
  if p.category = some cid then { p with category := none } else p

/-- Deleting a category row: by `Post.category(on_delete=SET_NULL)`,
dependent posts survive with their category reference nulled. -/
def Store.deleteCategory (s : Store) (cid : Nat) : Store :=
  { s with categories := s.categories.filter (fun c => c.id ≠ cid),
           posts := s.posts.map (scrubCategory cid) }

/-- The `SET_NULL` action of `Post.location` applied to one row. -/
def scrubLocation (lid : Nat) (p : Post) : Post :=
  if p.location = some lid then { p with location := none } else p

/-- Deleting a location row: by `Post.location(on_delete=SET_NULL)`,
dependent posts survive with their location reference nulled. -/
def Store.deleteLocation (s : Store) (lid : Nat) : Store :=
  { s with locations := s.locations.filter (fun l => l.id ≠ lid),
           posts := s.posts.map (scrubLocation lid) }

/-- Deleting a comment row (`comment.delete()`): nothing references
comments, so only the row itself disappears. -/
def Store.deleteComment (s : Store) (cid : Nat) : Store :=
  { s with comments := s.comments.filter (fun c => c.id ≠ cid) }

/-! ## Request handlers (views.py)

Handlers return the response together with the store after the
request.  `@login_required` handlers take the authenticated requester
as a `Nat`; anonymous-reachable handlers take an `Option Nat`
viewer. -/

/-- `post_detail` (views.py lines 41-55): fetch the post by pk (404 if
absent); if the viewer is not the author, refetch with the three
visibility conditions (404 if they fail); render the post with its
comments ordered by creation time. -/
def post_detail (s : Store) (now : Nat) (viewer : Option Nat) (pid : Nat) : Response :=
  match findPost s pid with
  | none => .notFound
  | some post =>
    if viewer = some post.author then
      .renderDetail post (sortByCreatedAsc (s.comments.filter (fun c => c.post == pid)))
    else if post.is_published && decide (post.pub_date ≤ now) && categoryPublished s post then
      .renderDetail post (sortByCreatedAsc (s.comments.filter (fun c => c.post == pid)))
    else .notFound

/-- `create_post` (views.py lines 58-66): on a valid form, save the
form-built post with `post.author = request.user` and redirect to the
requester's profile; otherwise re-render the form with no write. -/
def create_post (s : Store) (u newId now : Nat) (f : PostFormData) : Response × Store :=
  if f.valid then
    (.redirectTo (.profilePage u),
      { s with posts := s.posts ++ [{ f.buildPost newId now with author := u }] })
  else (.renderTemplate "blog/create.html", s)

/-- `edit_post` (views.py lines 69-80): fetch by pk (404 if absent); a
non-author is redirected to the post's detail view untouched; the
author's valid form is saved over the row; an invalid form re-renders. -/
def edit_post (s : Store) (u pid : Nat) (f : PostFormData) : Response × Store :=
  match findPost s pid with
  | none => (.notFound, s)
  | some post =>
    if u ≠ post.author then (.redirectTo (.postDetail pid), s)
    else if f.valid then
      (.redirectTo (.postDetail pid),
        { s with posts := s.posts.map (fun q => if q.id == pid then f.applyTo q else q) })
    else (.renderTemplate "blog/create.html", s)

/-- `delete_post` (views.py lines 83-90): fetch by pk AND author (404
on mismatch or absence); a POST deletes (cascading to comments) and
redirects to the requester's profile; a GET renders the confirmation
form. -/
def delete_post (s : Store) (u pid : Nat) (methodIsPost : Bool) : Response × Store :=
  match findPostOfAuthor s pid u with
  | none => (.notFound, s)
  | some _post =>
    if methodIsPost then (.redirectTo (.profilePage u), s.deletePostCascade pid)
    else (.renderTemplate "blog/create.html", s)

/-- `add_comment` (views.py lines 93-103): fetch the post by pk (404 if
absent); on a valid form, save the comment with
`comment.author = request.user` and `comment.post = post`, then
redirect to the post's detail view. -/
def add_comment (s : Store) (u newId now pid : Nat) (f : CommentFormData) : Response × Store :=
  match findPost s pid with
  | none => (.notFound, s)
  | some _post =>
    if f.valid then
      (.redirectTo (.postDetail pid),
        { s with comments :=
            s.comments ++ [{ f.buildComment newId now with author := u, post := pid }] })
    else (.renderTemplate "blog/comment.html", s)

/-- `edit_comment` (views.py lines 106-114): fetch the comment by pk
AND author (404 on mismatch or absence); a valid form is saved over the
row and the handler redirects to the detail view of the post id taken
from the URL — the comment's own post key is never consulted. -/
def edit_comment (s : Store) (u pid cid : Nat) (f : CommentFormData) : Response × Store :=
  match findCommentOfAuthor s cid u with
  | none => (.notFound, s)
  | some _c =>
    if f.valid then
      (.redirectTo (.postDetail pid),
        { s with comments := s.comments.map (fun d => if d.id == cid then f.applyTo d else d) })
    else (.renderTemplate "blog/comment.html", s)

/-- `delete_comment` (views.py lines 117-124): fetch the comment by pk
AND author (404 on mismatch or absence); a POST deletes the row and
redirects to the detail view of the URL's post id; a GET renders the
confirmation page. -/
def delete_comment (s : Store) (u pid cid : Nat) (methodIsPost : Bool) : Response × Store :=
  match findCommentOfAuthor s cid u with
  | none => (.notFound, s)
  | some _c =>
    if methodIsPost then (.redirectTo (.postDetail pid), s.deleteComment cid)
    else (.renderTemplate "blog/comment.html", s)

/-- The `posts` queryset built by `profile` (views.py lines 129-134):
the owner sees all their rows annotated and ordered newest first;
every other viewer (including the anonymous one) sees
`public_posts().filter(author=profile_user)`. -/
def profile_posts (s : Store) (now : Nat) (viewer : Option Nat) (username : Nat) : List AnnPost :=
  if viewer = some username then
    sortByPubDateDesc (annotateComments s (s.posts.filter (fun p => p.author == username)))
  else
    (publicFeed s now).filter (fun a => a.post.author == username)

/-- `profile` (views.py lines 127-138): fetch the user by username (404
if absent), build the queryset above, paginate it, render. -/
def profile (s : Store) (now : Nat) (viewer : Option Nat) (username : Nat)
    (page : PageParam) : Response :=
  if s.users.contains username then
    .renderProfile username (get_page (profile_posts s now viewer username) POSTS_PER_PAGE page)
  else .notFound

/-! ## Concrete fixtures used by witnesses and counterexamples -/

/-- A published category. -/
def exCategory : Category :=
  { id := 10, title := "Travel", description := "d", slug := "travel",
    is_published := true, created_at := 0 }

/-- An unpublished category. -/
def exHiddenCategory : Category :=
  { id := 11, title := "Drafts", description := "d", slug := "drafts",
    is_published := false, created_at := 0 }

/-- A published, past-dated post in the published category. -/
def exPost : Post :=
  { id := 1, title := "p1", text := "t1", image := none, pub_date := 5,
    author := 100, category := some 10, location := none,
    is_published := true, created_at := 0 }

/-- A published, past-dated post whose category reference is null. -/
def exNullCatPost : Post :=
  { id := 2, title := "p2", text := "t2", image := none, pub_date := 3,
    author := 100, category := none, location := none,
    is_published := true, created_at := 0 }

/-- A comment on `exPost` by the second user. -/
def exComment : Comment :=
  { id := 7, text := "c", post := 1, created_at := 1, author := 200 }

/-- A small store with two users, two categories and two posts. -/
def exStore : Store :=
  { users := [100, 200], categories := [exCategory, exHiddenCategory],
    locations := [], posts := [exPost, exNullCatPost], comments := [exComment] }

/-- A sample valid post submission carrying a client-chosen author. -/
def exPostForm : PostFormData :=
  { valid := true, title := "new", text := "body", image := none,
    pub_date := 4, category := some 10, location := none,
    is_published := true, author_attempt := 999 }

/-- A sample valid comment submission carrying a client-chosen author. -/
def exCommentForm : CommentFormData :=
  { valid := true, text := "hi", author_attempt := 999 }

/-- The list is ordered newest first: every element's `pub_date` is at
least that of everything after it. -/
def sortedDescPub (l : List AnnPost) : Prop :=
  l.Pairwise (fun x y => y.post.pub_date ≤ x.post.pub_date)

/-! ## Helper lemmas -/

theorem mem_insertDescPub (a x : AnnPost) (l : List AnnPost) :
    x ∈ insertDescPub a l ↔ x = a ∨ x ∈ l := by
  induction l with
  | nil => simp [insertDescPub]
  | cons b l ih =>
    by_cases h : b.post.pub_date < a.post.pub_date
    · simp [insertDescPub, h]
    · simp [insertDescPub, h, ih]
      tauto

theorem mem_sortByPubDateDesc (x : AnnPost) (l : List AnnPost) :
    x ∈ sortByPubDateDesc l ↔ x ∈ l := by
  induction l with
  | nil => simp [sortByPubDateDesc]
  | cons b l ih =>
    show x ∈ insertDescPub b (sortByPubDateDesc l) ↔ _
    rw [mem_insertDescPub]
    simp [ih]

theorem pairwise_insertDescPub (a : AnnPost) (l : List AnnPost)
    (h : sortedDescPub l) : sortedDescPub (insertDescPub a l) := by
  induction l with
  | nil => simp [insertDescPub, sortedDescPub]
  | cons b l ih =>
    rcases (List.pairwise_cons.mp h) with ⟨hb, hl⟩
    by_cases hcmp : b.post.pub_date < a.post.pub_date
    · simp only [insertDescPub, if_pos hcmp, sortedDescPub]
      refine List.pairwise_cons.mpr ⟨?_, h⟩
      intro x hx
      rcases List.mem_cons.mp hx with rfl | hx
      · exact Nat.le_of_lt hcmp
      · exact Nat.le_trans (hb x hx) (Nat.le_of_lt hcmp)
    · simp only [insertDescPub, if_neg hcmp]
      refine List.pairwise_cons.mpr ⟨?_, ih hl⟩
      intro x hx
      rcases (mem_insertDescPub a x l).mp hx with rfl | hx
      · exact Nat.le_of_not_lt hcmp
      · exact hb x hx

theorem sortedDescPub_sortByPubDateDesc (l : List AnnPost) :
    sortedDescPub (sortByPubDateDesc l) := by
  induction l with
  | nil => simp [sortByPubDateDesc, sortedDescPub]
  | cons b l ih => exact pairwise_insertDescPub b (sortByPubDateDesc l) ih

theorem mem_annotateComments (s : Store) (l : List Post) (a : AnnPost) :
    a ∈ annotateComments s l ↔
      (a.post ∈ l ∧ a.comment_count = commentCount s a.post.id) := by
  unfold annotateComments
  rw [List.mem_map]
  constructor
  · rintro ⟨p, hp, rfl⟩
    exact ⟨hp, rfl⟩
  · rintro ⟨hp, hc⟩
    exact ⟨a.post, hp, by cases a with | mk post cnt => simp at hc; simp [hc]⟩

/-- The first element satisfying `p` also satisfies `q`, so it is the
first satisfying the conjunction. -/
theorem find?_and_eq_some {α : Type} (p q : α → Bool) (l : List α) (x : α)
    (hx : l.find? p = some x) (hq : q x = true) :
    l.find? (fun a => p a && q a) = some x := by
  induction l with
  | nil => simp at hx
  | cons a l ih =>
    by_cases hpa : p a = true
    · rw [List.find?_cons_of_pos _ hpa] at hx
      cases hx
      exact List.find?_cons_of_pos _ (by simp [hpa, hq])
    · rw [List.find?_cons_of_neg _ hpa] at hx
      rw [List.find?_cons_of_neg _ (by simp [hpa])]
      exact ih hx

/-- In a list where at most one element can satisfy `p`, if the first
`p`-element fails `q`, nothing satisfies the conjunction. -/
theorem find?_and_eq_none {α : Type} (p q : α → Bool) (l : List α) (x : α)
    (hx : l.find? p = some x) (hq : q x = false)
    (huniq : l.Pairwise (fun a b => ¬(p a = true ∧ p b = true))) :
    l.find? (fun a => p a && q a) = none := by
  induction l with
  | nil => simp at hx
  | cons a l ih =>
    rcases (List.pairwise_cons.mp huniq) with ⟨ha, hl⟩
    by_cases hpa : p a = true
    · rw [List.find?_cons_of_pos _ hpa] at hx
      cases hx
      rw [List.find?_cons_of_neg _ (by simp [hq])]
      refine List.find?_eq_none.mpr ?_
      intro b hb
      simp only [Bool.and_eq_true, not_and]
      intro hpb
      exact absurd ⟨hpa, hpb⟩ (ha b hb)
    · rw [List.find?_cons_of_neg _ hpa] at hx
      rw [List.find?_cons_of_neg _ (by simp [hpa])]
      exact ih hx hl

/-- If nothing satisfies `p`, nothing satisfies the conjunction. -/
theorem find?_and_none_of_none {α : Type} (p q : α → Bool) (l : List α)
    (h : l.find? p = none) :
    l.find? (fun a => p a && q a) = none := by
  refine List.find?_eq_none.mpr ?_
  intro a ha
  have := List.find?_eq_none.mp h a ha
  simp only [Bool.and_eq_true, not_and]
  intro hp
  exact absurd hp this

/-- In a list where at most one element can satisfy `p`, a member
satisfying `p` is what `find?` returns. -/
theorem find?_eq_of_mem_unique {α : Type} (p : α → Bool) (l : List α) (c : α)
    (huniq : l.Pairwise (fun a b => ¬(p a = true ∧ p b = true)))
    (hc : c ∈ l) (hpc : p c = true) : l.find? p = some c := by
  induction l with
  | nil => simp at hc
  | cons a l ih =>
    rcases (List.pairwise_cons.mp huniq) with ⟨ha, hl⟩
    rcases List.mem_cons.mp hc with rfl | hc
    · exact List.find?_cons_of_pos _ hpc
    · by_cases hpa : p a = true
      · exact absurd ⟨hpa, hpc⟩ (ha c hc)
      · rw [List.find?_cons_of_neg _ hpa]
        exact ih hl hc

/-- With unique category primary keys, the join condition
`category__is_published=True` holds exactly when a published category
row carries the post's (non-null) category key. -/
theorem categoryPublished_iff (s : Store) (hWF : s.WF) (p : Post) :
    categoryPublished s p = true ↔
      ∃ c ∈ s.categories, p.category = some c.id ∧ c.is_published = true := by
  cases hcat : p.category with
  | none => simp [categoryPublished, hcat]
  | some cid =>
    have hcp : categoryPublished s p =
        (match s.categories.find? (fun c => c.id == cid) with
         | some c => c.is_published
         | none => false) := by
      unfold categoryPublished
      rw [hcat]
    rw [hcp]
    constructor
    · intro h
      cases hfind : s.categories.find? (fun c => c.id == cid) with
      | none => rw [hfind] at h; simp at h
      | some c =>
        rw [hfind] at h
        refine ⟨c, List.mem_of_find?_eq_some hfind, ?_, h⟩
        have := List.find?_some hfind
        simp at this
        simp [this]
    · rintro ⟨c, hc, hid, hpub⟩
      have hid' : c.id = cid := by
        cases hid; rfl
      have huniq : s.categories.Pairwise
          (fun a b => ¬((a.id == cid) = true ∧ (b.id == cid) = true)) := by
        refine List.Pairwise.imp ?_ hWF.2.2
        intro a b hne hab
        simp at hab
        exact hne (hab.1.trans hab.2.symm)
      rw [find?_eq_of_mem_unique _ _ c huniq hc (by simp [hid'])]
      exact hpub

/-- Post primary keys are unique, so at most one row matches `pk=pid`. -/
theorem posts_uniq_on_id (s : Store) (hWF : s.WF) (pid : Nat) :
    s.posts.Pairwise (fun a b => ¬((a.id == pid) = true ∧ (b.id == pid) = true)) := by
  refine List.Pairwise.imp ?_ hWF.1
  intro a b hne h
  simp at h
  exact hne (h.1.trans h.2.symm)

/-- Comment primary keys are unique, so at most one row matches
`pk=cid`. -/
theorem comments_uniq_on_id (s : Store) (hWF : s.WF) (cid : Nat) :
    s.comments.Pairwise (fun a b => ¬((a.id == cid) = true ∧ (b.id == cid) = true)) := by
  refine List.Pairwise.imp ?_ hWF.2.1
  intro a b hne h
  simp at h
  exact hne (h.1.trans h.2.symm)

/-- If the post with key `pid` exists but is not authored by `u`, the
authorship-scoped lookup of `delete_post` finds nothing. -/
theorem findPostOfAuthor_eq_none (s : Store) (hWF : s.WF) (pid u : Nat) (p : Post)
    (hp : findPost s pid = some p) (hne : p.author ≠ u) :
    findPostOfAuthor s pid u = none := by
  unfold findPostOfAuthor
  have hp' : s.posts.find? (fun q => q.id == pid) = some p := hp
  have := find?_and_eq_none (fun q => q.id == pid) (fun q => q.author == u)
    s.posts p hp' (by simp [hne]) (posts_uniq_on_id s hWF pid)
  simpa using this

/-- If no post has key `pid`, neither does the authorship-scoped
lookup. -/
theorem findPostOfAuthor_none_of_none (s : Store) (pid u : Nat)
    (hp : findPost s pid = none) :
    findPostOfAuthor s pid u = none := by
  unfold findPostOfAuthor
  have hp' : s.posts.find? (fun q => q.id == pid) = none := hp
  have := find?_and_none_of_none (fun q => q.id == pid) (fun q => q.author == u) s.posts hp'
  simpa using this

/-- If the comment with key `cid` is authored by `u`, the
authorship-scoped lookup of `edit_comment`/`delete_comment` finds it. -/
theorem findCommentOfAuthor_eq_some (s : Store) (cid u : Nat) (c : Comment)
    (hc : findComment s cid = some c) (hauth : c.author = u) :
    findCommentOfAuthor s cid u = some c := by
  unfold findCommentOfAuthor
  have hc' : s.comments.find? (fun d => d.id == cid) = some c := hc
  have := find?_and_eq_some (fun d => d.id == cid) (fun d => d.author == u)
    s.comments c hc' (by simp [hauth])
  simpa using this

/-- If the comment with key `cid` exists but is not authored by `u`,
the authorship-scoped lookup finds nothing. -/
theorem findCommentOfAuthor_eq_none (s : Store) (hWF : s.WF) (cid u : Nat) (c : Comment)
    (hc : findComment s cid = some c) (hne : c.author ≠ u) :
    findCommentOfAuthor s cid u = none := by
  unfold findCommentOfAuthor
  have hc' : s.comments.find? (fun d => d.id == cid) = some c := hc
  have := find?_and_eq_none (fun d => d.id == cid) (fun d => d.author == u)
    s.comments c hc' (by simp [hne]) (comments_uniq_on_id s hWF cid)
  simpa using this

/-- If no comment has key `cid`, neither does the authorship-scoped
lookup. -/
theorem findCommentOfAuthor_none_of_none (s : Store) (cid u : Nat)
    (hc : findComment s cid = none) :
    findCommentOfAuthor s cid u = none := by
  unfold findCommentOfAuthor
  have hc' : s.comments.find? (fun d => d.id == cid) = none := hc
  have := find?_and_none_of_none (fun d => d.id == cid) (fun d => d.author == u) s.comments hc'
  simpa using this

/-- After a post row is deleted, no lookup by its key succeeds. -/
theorem findPostOfAuthor_deleted (t : Store) (q u : Nat) :
    findPostOfAuthor (t.deletePostCascade q) q u = none := by
  unfold findPostOfAuthor Store.deletePostCascade
  refine List.find?_eq_none.mpr ?_
  intro p hp
  rw [List.mem_filter] at hp
  have : p.id ≠ q := by simpa using hp.2
  simp [this]

/-- After a comment row is deleted, no lookup by its key succeeds. -/
theorem findCommentOfAuthor_deleted (t : Store) (q u : Nat) :
    findCommentOfAuthor (t.deleteComment q) q u = none := by
  unfold findCommentOfAuthor Store.deleteComment
  refine List.find?_eq_none.mpr ?_
  intro c hc
  rw [List.mem_filter] at hc
  have : c.id ≠ q := by simpa using hc.2
  simp [this]

/-! ## Claims -/

/-- Claim C1 counterexample: `exNullCatPost` is stored, published and
past-dated with a null category, so the claimed predicate (which
accepts a null category) holds of it, yet it does not appear in the
public feed — `filter(category__is_published=True)` drops rows whose
category key is null. -/
theorem c1_nullcat_counterexample :
    ¬ ((∃ a ∈ publicFeed exStore 10, a.post = exNullCatPost) ↔
        (exNullCatPost ∈ exStore.posts ∧ exNullCatPost.is_published = true ∧
          exNullCatPost.pub_date ≤ 10 ∧
          (exNullCatPost.category = none ∨
            ∃ c ∈ exStore.categories, exNullCatPost.category = some c.id ∧
              c.is_published = true))) := by
  decide

/-- Claim C1 (amended): a post appears in the public feed produced by
`public_posts` iff it is stored, `is_published` is true, its `pub_date`
is at or before the current time, and its category reference is
non-null and names a published category row.  In particular a post
whose category reference is null IS excluded by the category
condition. -/
theorem c1_public_feed_iff (s : Store) (hWF : s.WF) (now : Nat) (p : Post) :
    (∃ a ∈ publicFeed s now, a.post = p) ↔
      (p ∈ s.posts ∧ p.is_published = true ∧ p.pub_date ≤ now ∧
        ∃ c ∈ s.categories, p.category = some c.id ∧ c.is_published = true) := by
  unfold publicFeed public_posts
  constructor
  · rintro ⟨a, ha, rfl⟩
    rw [mem_sortByPubDateDesc, mem_annotateComments] at ha
    rcases ha with ⟨hp, _⟩
    rw [List.mem_filter] at hp
    rcases hp with ⟨hmem, hvis⟩
    unfold publiclyVisible at hvis
    simp only [Bool.and_eq_true, decide_eq_true_eq] at hvis
    exact ⟨hmem, hvis.1.2, hvis.1.1, (categoryPublished_iff s hWF _).mp hvis.2⟩
  · rintro ⟨hmem, hpub, hdate, hcat⟩
    refine ⟨⟨p, commentCount s p.id⟩, ?_, rfl⟩
    rw [mem_sortByPubDateDesc, mem_annotateComments]
    refine ⟨?_, rfl⟩
    rw [List.mem_filter]
    refine ⟨hmem, ?_⟩
    unfold publiclyVisible
    simp only [Bool.and_eq_true, decide_eq_true_eq]
    exact ⟨⟨hdate, hpub⟩, (categoryPublished_iff s hWF p).mpr hcat⟩

/-- Witness for C1's amended theorem at the concrete store. -/
theorem c1_public_feed_iff_witness :
    (∃ a ∈ publicFeed exStore 10, a.post = exPost) ↔
      (exPost ∈ exStore.posts ∧ exPost.is_published = true ∧ exPost.pub_date ≤ 10 ∧
        ∃ c ∈ exStore.categories, exPost.category = some c.id ∧ c.is_published = true) :=
  c1_public_feed_iff exStore (by decide) 10 exPost

/-- Claim C2 counterexample: the claim says an absent page parameter
and page 0 both yield page 1, but on a two-page collection Django's
`get_page` sends page 0 (an `EmptyPage` below range) to the LAST page
while the absent parameter yields page 1. -/
theorem c2_page_zero_counterexample :
    ¬ (get_page ([0, 1, 2] : List Nat) 2 (PageParam.num 0) =
        get_page ([0, 1, 2] : List Nat) 2 PageParam.absent) := by
  decide

/-- Claim C2 (amended): requesting an in-range page N returns exactly
the slice [(N-1)*pageSize, N*pageSize); an absent or non-numeric page
parameter yields page 1; a numeric page below 1 — including page 0 —
yields the LAST page, as does a numeric page beyond the last; no page
request errors (`get_page` is total). -/
theorem c2_get_page_spec {α : Type} (l : List α) (per_page : Nat) :
    (∀ N : Nat, 1 ≤ N → N ≤ num_pages l.length per_page →
        get_page l per_page (.num (N : Int)) =
          (l.drop ((N - 1) * per_page)).take per_page)
    ∧ get_page l per_page .absent = l.take per_page
    ∧ get_page l per_page .nonNumeric = l.take per_page
    ∧ (∀ n : Int, n < 1 →
        get_page l per_page (.num n) =
          (l.drop ((num_pages l.length per_page - 1) * per_page)).take per_page)
    ∧ (∀ n : Int, (num_pages l.length per_page : Int) < n →
        get_page l per_page (.num n) =
          (l.drop ((num_pages l.length per_page - 1) * per_page)).take per_page) := by
  refine ⟨?_, by simp [get_page, clampPage], by simp [get_page, clampPage], ?_, ?_⟩
  · intro N h1 hN
    have hn1 : ¬((N : Int) < 1) := by exact_mod_cast Nat.not_lt.mpr h1
    have hn2 : ¬((num_pages l.length per_page : Int) < (N : Int)) := by
      exact_mod_cast Nat.not_lt.mpr hN
    simp [get_page, clampPage, hn1, hn2]
  · intro n hn
    have hn2 : ¬((num_pages l.length per_page : Int) < n) := by omega
    simp [get_page, clampPage, hn]
  · intro n hn
    have h1 : ¬(n < 1) := by omega
    simp [get_page, clampPage, h1, hn]

/-- Witness for C2's amended theorem: page 2 of a 3-element collection
with page size 2. -/
theorem c2_get_page_spec_witness :
    get_page ([0, 1, 2] : List Nat) 2 (PageParam.num ((2 : Nat) : Int)) =
      (([0, 1, 2] : List Nat).drop ((2 - 1) * 2)).take 2 :=
  (c2_get_page_spec ([0, 1, 2] : List Nat) 2).1 2 (by decide) (by decide)

/-- Claim C3: for an existing post and an authenticated requester who
is not its author, `edit_post` answers with a redirect to the post's
detail view and leaves the store untouched (even for a valid form),
while `delete_post` answers NotFound and leaves the store untouched
(for both GET and POST); moreover `edit_post` never answers NotFound
for an existing post, whatever the requester and form. -/
theorem c3_edit_delete_nonauthor (s : Store) (hWF : s.WF) (u pid : Nat) (p : Post)
    (f : PostFormData) (m : Bool)
    (hp : findPost s pid = some p) (hne : u ≠ p.author) :
    edit_post s u pid f = (.redirectTo (.postDetail pid), s)
    ∧ delete_post s u pid m = (.notFound, s)
    ∧ (∀ (u' : Nat) (f' : PostFormData),
        (edit_post s u' pid f').1 ≠ Response.notFound) := by
  have hdel : findPostOfAuthor s pid u = none :=
    findPostOfAuthor_eq_none s hWF pid u p hp (fun h => hne h.symm)
  refine ⟨?_, ?_, ?_⟩
  · simp [edit_post, hp, hne]
  · simp [delete_post, hdel]
  · intro u' f'
    by_cases h : u' = p.author
    · cases hv : f'.valid <;> simp [edit_post, hp, h, hv]
    · simp [edit_post, hp, h]

/-- Witness for C3 at the concrete store: user 200 is not the author of
`exPost` (authored by 100). -/
theorem c3_edit_delete_nonauthor_witness :
    edit_post exStore 200 1 exPostForm = (.redirectTo (.postDetail 1), exStore)
    ∧ delete_post exStore 200 1 true = (.notFound, exStore) :=
  ⟨(c3_edit_delete_nonauthor exStore (by decide) 200 1 exPost exPostForm true
      (by decide) (by decide)).1,
   (c3_edit_delete_nonauthor exStore (by decide) 200 1 exPost exPostForm true
      (by decide) (by decide)).2.1⟩

/-- Claim C4: the detail view returns an existing post to its author
unconditionally (so an author previews their own unpublished or
future-dated post); any other viewer — including the anonymous one —
receives the post exactly when it passes the visibility conditions of
`public_posts`, and NotFound otherwise. -/
theorem c4_post_detail (s : Store) (now : Nat) (viewer : Option Nat) (pid : Nat) (p : Post)
    (hp : findPost s pid = some p) :
    (viewer = some p.author →
      post_detail s now viewer pid =
        .renderDetail p (sortByCreatedAsc (s.comments.filter (fun c => c.post == pid))))
    ∧ (viewer ≠ some p.author →
        ((post_detail s now viewer pid =
            .renderDetail p (sortByCreatedAsc (s.comments.filter (fun c => c.post == pid)))) ↔
          publiclyVisible s now p = true)
        ∧ (publiclyVisible s now p = false →
            post_detail s now viewer pid = Response.notFound)) := by
  have hcond : (p.is_published && decide (p.pub_date ≤ now) && categoryPublished s p) =
      publiclyVisible s now p := by
    unfold publiclyVisible
    rw [Bool.and_comm p.is_published (decide (p.pub_date ≤ now))]
  constructor
  · intro hv
    simp [post_detail, hp, hv]
  · intro hv
    have hv' : ¬(viewer = some p.author) := hv
    constructor
    · cases hvis : publiclyVisible s now p with
      | false =>
        have hc2 : (p.is_published && decide (p.pub_date ≤ now) &&
            categoryPublished s p) = false := by rw [hcond, hvis]
        simp [post_detail, hp, hv', hc2, hvis]
      | true =>
        have hc2 : (p.is_published && decide (p.pub_date ≤ now) &&
            categoryPublished s p) = true := by rw [hcond, hvis]
        simp [post_detail, hp, hv', hc2, hvis]
    · intro hvis
      have hc2 : (p.is_published && decide (p.pub_date ≤ now) &&
          categoryPublished s p) = false := by rw [hcond, hvis]
      simp [post_detail, hp, hv', hc2]

/-- Witness for C4 at the concrete store: viewer 200 is not the author
of `exPost`, which is publicly visible at time 10. -/
theorem c4_post_detail_witness :
    post_detail exStore 10 (some 100) 1 =
      .renderDetail exPost
        (sortByCreatedAsc (exStore.comments.filter (fun c => c.post == 1)))
    ∧ (post_detail exStore 10 (some 200) 1 =
        .renderDetail exPost
          (sortByCreatedAsc (exStore.comments.filter (fun c => c.post == 1))) ↔
        publiclyVisible exStore 10 exPost = true) :=
  ⟨(c4_post_detail exStore 10 (some 100) 1 exPost (by decide)).1 (by decide),
   ((c4_post_detail exStore 10 (some 200) 1 exPost (by decide)).2 (by decide)).1⟩

/-- Claim C5: the list the profile view paginates contains, for the
owner, exactly all of the owner's stored posts — unpublished and
future-dated included — each annotated with its comment count, ordered
newest first; for any other viewer it contains exactly the owner's
publicly visible posts (also annotated); and the handler renders that
list paginated whenever the user exists. -/
theorem c5_profile_posts (s : Store) (now A : Nat) (hA : s.users.contains A = true) :
    (∀ a : AnnPost, a ∈ profile_posts s now (some A) A ↔
        (a.post ∈ s.posts ∧ a.post.author = A ∧
          a.comment_count = commentCount s a.post.id))
    ∧ sortedDescPub (profile_posts s now (some A) A)
    ∧ (∀ v : Option Nat, v ≠ some A →
        ∀ a : AnnPost, a ∈ profile_posts s now v A ↔
          (a.post ∈ s.posts ∧ a.post.author = A ∧
            publiclyVisible s now a.post = true ∧
            a.comment_count = commentCount s a.post.id))
    ∧ (∀ (v : Option Nat) (page : PageParam),
        profile s now v A page =
          .renderProfile A (get_page (profile_posts s now v A) POSTS_PER_PAGE page)) := by
  refine ⟨?_, ?_, ?_, ?_⟩
  · intro a
    unfold profile_posts
    rw [if_pos rfl, mem_sortByPubDateDesc, mem_annotateComments, List.mem_filter]
    simp only [beq_iff_eq]
    tauto
  · unfold profile_posts
    rw [if_pos rfl]
    exact sortedDescPub_sortByPubDateDesc _
  · intro v hv a
    unfold profile_posts
    rw [if_neg hv, List.mem_filter]
    unfold publicFeed public_posts
    rw [mem_sortByPubDateDesc, mem_annotateComments, List.mem_filter]
    simp only [beq_iff_eq]
    tauto
  · intro v page
    have hA' : A ∈ s.users := by simpa using hA
    simp [profile, hA']

/-- Witness for C5 at the concrete store: user 100 exists, and the
owner's list is probed at the annotated `exPost` (one comment). -/
theorem c5_profile_posts_witness :
    (⟨exPost, 1⟩ : AnnPost) ∈ profile_posts exStore 10 (some 100) 100 ↔
      ((⟨exPost, 1⟩ : AnnPost).post ∈ exStore.posts ∧
        (⟨exPost, 1⟩ : AnnPost).post.author = 100 ∧
        (⟨exPost, 1⟩ : AnnPost).comment_count =
          commentCount exStore (⟨exPost, 1⟩ : AnnPost).post.id) :=
  (c5_profile_posts exStore 10 100 (by decide)).1 ⟨exPost, 1⟩

/-- Claim C6: a valid create submission persists a post (resp. comment)
whose author is the authenticated requester, whatever author value the
client put in the form data: the handlers overwrite the form-built
author with `request.user` before saving, and no pre-existing row is
touched. -/
theorem c6_author_forced (s : Store) (u newId now pid : Nat)
    (fp : PostFormData) (fc : CommentFormData) (p : Post)
    (hvp : fp.valid = true) (hvc : fc.valid = true) (hp : findPost s pid = some p) :
    ((create_post s u newId now fp).2.posts =
        s.posts ++ [{ fp.buildPost newId now with author := u }]
      ∧ (∀ q ∈ (create_post s u newId now fp).2.posts, q ∉ s.posts → q.author = u))
    ∧ ((add_comment s u newId now pid fc).2.comments =
        s.comments ++ [{ fc.buildComment newId now with author := u, post := pid }]
      ∧ (∀ c ∈ (add_comment s u newId now pid fc).2.comments,
          c ∉ s.comments → c.author = u)) := by
  constructor
  · constructor
    · simp [create_post, hvp]
    · intro q hq hnew
      simp only [create_post, hvp, if_pos] at hq
      rcases List.mem_append.mp hq with h | h
      · exact absurd h hnew
      · rcases List.mem_singleton.mp h with rfl
        rfl
  · constructor
    · simp [add_comment, hp, hvc]
    · intro c hc hnew
      simp only [add_comment, hp, hvc] at hc
      rcases List.mem_append.mp hc with h | h
      · exact absurd h hnew
      · rcases List.mem_singleton.mp h with rfl
        rfl

/-- Witness for C6 at the concrete store, with forms whose client-side
author field is 999 while the requester is 200. -/
theorem c6_author_forced_witness :
    (create_post exStore 200 50 10 exPostForm).2.posts =
        exStore.posts ++ [{ exPostForm.buildPost 50 10 with author := 200 }]
    ∧ (add_comment exStore 200 50 10 1 exCommentForm).2.comments =
        exStore.comments ++
          [{ exCommentForm.buildComment 50 10 with author := 200, post := 1 }] :=
  ⟨(c6_author_forced exStore 200 50 10 1 exPostForm exCommentForm exPost
      (by decide) (by decide) (by decide)).1.1,
   (c6_author_forced exStore 200 50 10 1 exPostForm exCommentForm exPost
      (by decide) (by decide) (by decide)).2.1⟩

/-- Claim C7: deleting a post removes exactly its comments (cascade on
`Comment.post`) and exactly its own row among posts; deleting a
category (resp. location) deletes no post — every stored post survives
with its category (resp. location) reference nulled when it pointed at
the deleted row, every other field untouched. -/
theorem c7_delete_semantics (s : Store) (pid cid lid : Nat) :
    (∀ c : Comment, c ∈ (s.deletePostCascade pid).comments ↔
        (c ∈ s.comments ∧ c.post ≠ pid))
    ∧ (∀ p : Post, p ∈ (s.deletePostCascade pid).posts ↔
        (p ∈ s.posts ∧ p.id ≠ pid))
    ∧ (s.deleteCategory cid).posts.length = s.posts.length
    ∧ (s.deleteCategory cid).posts = s.posts.map (scrubCategory cid)
    ∧ (∀ p : Post,
        (scrubCategory cid p).category =
            (if p.category = some cid then none else p.category)
          ∧ (scrubCategory cid p).id = p.id
          ∧ (scrubCategory cid p).title = p.title
          ∧ (scrubCategory cid p).text = p.text
          ∧ (scrubCategory cid p).image = p.image
          ∧ (scrubCategory cid p).pub_date = p.pub_date
          ∧ (scrubCategory cid p).author = p.author
          ∧ (scrubCategory cid p).location = p.location
          ∧ (scrubCategory cid p).is_published = p.is_published
          ∧ (scrubCategory cid p).created_at = p.created_at)
    ∧ (s.deleteLocation lid).posts.length = s.posts.length
    ∧ (s.deleteLocation lid).posts = s.posts.map (scrubLocation lid)
    ∧ (∀ p : Post,
        (scrubLocation lid p).location =
            (if p.location = some lid then none else p.location)
          ∧ (scrubLocation lid p).id = p.id
          ∧ (scrubLocation lid p).title = p.title
          ∧ (scrubLocation lid p).text = p.text
          ∧ (scrubLocation lid p).image = p.image
          ∧ (scrubLocation lid p).pub_date = p.pub_date
          ∧ (scrubLocation lid p).author = p.author
          ∧ (scrubLocation lid p).category = p.category
          ∧ (scrubLocation lid p).is_published = p.is_published
          ∧ (scrubLocation lid p).created_at = p.created_at) := by
  refine ⟨?_, ?_, ?_, rfl, ?_, ?_, rfl, ?_⟩
  · intro c
    simp [Store.deletePostCascade, List.mem_filter]
  · intro p
    simp [Store.deletePostCascade, List.mem_filter]
  · simp [Store.deleteCategory]
  · intro p
    unfold scrubCategory
    by_cases h : p.category = some cid <;> simp [h]
  · simp [Store.deleteLocation]
  · intro p
    unfold scrubLocation
    by_cases h : p.location = some lid <;> simp [h]

/-- Witness for C7: deleting post 2 (which `exComment`, attached to
post 1, does not reference) keeps `exComment`. -/
theorem c7_delete_semantics_witness :
    exComment ∈ (exStore.deletePostCascade 2).comments ↔
      (exComment ∈ exStore.comments ∧ exComment.post ≠ 2) :=
  (c7_delete_semantics exStore 2 10 0).1 exComment

/-- Claim C8: the comment edit and delete handlers look the comment up
filtered by authorship, so a requester who is not the author — or a
comment id matching no row — gets NotFound with the store untouched,
while the author's request proceeds past the lookup (never answers
NotFound). -/
theorem c8_comment_auth_scope (s : Store) (hWF : s.WF) (u pid cid : Nat) (c : Comment)
    (f : CommentFormData) (m : Bool) (hc : findComment s cid = some c) :
    (c.author ≠ u →
      edit_comment s u pid cid f = (.notFound, s)
      ∧ delete_comment s u pid cid m = (.notFound, s))
    ∧ (∀ cid' : Nat, findComment s cid' = none →
        edit_comment s u pid cid' f = (.notFound, s)
        ∧ delete_comment s u pid cid' m = (.notFound, s))
    ∧ (c.author = u →
        (edit_comment s u pid cid f).1 ≠ Response.notFound
        ∧ (delete_comment s u pid cid m).1 ≠ Response.notFound) := by
  refine ⟨?_, ?_, ?_⟩
  · intro hne
    have h := findCommentOfAuthor_eq_none s hWF cid u c hc hne
    exact ⟨by simp [edit_comment, h], by simp [delete_comment, h]⟩
  · intro cid' hnone
    have h := findCommentOfAuthor_none_of_none s cid' u hnone
    exact ⟨by simp [edit_comment, h], by simp [delete_comment, h]⟩
  · intro hauth
    have h := findCommentOfAuthor_eq_some s cid u c hc hauth
    constructor
    · cases hv : f.valid <;> simp [edit_comment, h, hv]
    · cases m <;> simp [delete_comment, h]

/-- Witness for C8: user 100 is not the author of `exComment`
(authored by 200). -/
theorem c8_comment_auth_scope_witness :
    edit_comment exStore 100 1 7 exCommentForm = (.notFound, exStore)
    ∧ delete_comment exStore 100 1 7 true = (.notFound, exStore) :=
  (c8_comment_auth_scope exStore (by decide) 100 1 7 exComment exCommentForm true
    (by decide)).1 (by decide)

/-- Claim C9: a delete request for a post or comment id matching no
stored row answers NotFound and leaves the store unchanged; in
particular repeating a delete after the row is gone answers NotFound
instead of failing. -/
theorem c9_delete_missing (s : Store) (u pid pid2 cid : Nat) (m : Bool)
    (hp : findPost s pid = none) (hcm : findComment s cid = none) :
    delete_post s u pid m = (.notFound, s)
    ∧ delete_comment s u pid2 cid m = (.notFound, s)
    ∧ (∀ (t : Store) (q u' : Nat) (m' : Bool),
        delete_post (t.deletePostCascade q) u' q m' =
          (.notFound, t.deletePostCascade q))
    ∧ (∀ (t : Store) (q x u' : Nat) (m' : Bool),
        delete_comment (t.deleteComment q) u' x q m' =
          (.notFound, t.deleteComment q)) := by
  refine ⟨?_, ?_, ?_, ?_⟩
  · have h := findPostOfAuthor_none_of_none s pid u hp
    simp [delete_post, h]
  · have h := findCommentOfAuthor_none_of_none s cid u hcm
    simp [delete_comment, h]
  · intro t q u' m'
    have h := findPostOfAuthor_deleted t q u'
    simp [delete_post, h]
  · intro t q x u' m'
    have h := findCommentOfAuthor_deleted t q u'
    simp [delete_comment, h]

/-- Witness for C9: neither post 99 nor comment 99 exists in the
concrete store. -/
theorem c9_delete_missing_witness :
    delete_post exStore 100 99 true = (.notFound, exStore)
    ∧ delete_comment exStore 100 1 99 true = (.notFound, exStore) :=
  ⟨(c9_delete_missing exStore 100 99 1 99 true (by decide) (by decide)).1,
   (c9_delete_missing exStore 100 99 1 99 true (by decide) (by decide)).2.1⟩

/-- Claim C10: neither comment handler checks that the comment belongs
to the post named in the URL: for a comment authored by the requester,
edit (valid form) and delete (POST) succeed for EVERY post id X —
including ids naming a different post or no post at all — mutating or
deleting the comment and redirecting to the detail view of X as given
in the URL. -/
theorem c10_comment_post_unchecked (s : Store) (u cid : Nat) (c : Comment)
    (f : CommentFormData) (hc : findComment s cid = some c) (hauth : c.author = u)
    (hv : f.valid = true) :
    ∀ X : Nat,
      edit_comment s u X cid f =
        (.redirectTo (.postDetail X),
          { s with comments :=
              s.comments.map (fun d => if d.id == cid then f.applyTo d else d) })
      ∧ delete_comment s u X cid true =
          (.redirectTo (.postDetail X), s.deleteComment cid) := by
  have h := findCommentOfAuthor_eq_some s cid u c hc hauth
  intro X
  exact ⟨by simp [edit_comment, h, hv], by simp [delete_comment, h]⟩

/-- Witness for C10: `exComment` sits on post 1, yet editing and
deleting it through the URL of the non-existent post 42 succeeds and
redirects to post 42's detail view. -/
theorem c10_comment_post_unchecked_witness :
    edit_comment exStore 200 42 7 exCommentForm =
      (.redirectTo (.postDetail 42),
        { exStore with comments :=
            exStore.comments.map (fun d => if d.id == 7 then exCommentForm.applyTo d else d) })
    ∧ delete_comment exStore 200 42 7 true =
        (.redirectTo (.postDetail 42), exStore.deleteComment 7) :=
  c10_comment_post_unchecked exStore 200 7 exComment exCommentForm
    (by decide) (by decide) (by decide) 42

end Blogicum
